import Mathlib

/-!
Verification development for the `middleware` package of lessgoext
(csrf.go: CSRF token engine and middleware, JWT middleware, extractors).

Modelling conventions:
* Go `[]byte` is `List Nat` (each entry a byte, `< 256` where it matters);
  Go `string` is `List Char`.
* Go stdlib collaborators (`encoding/hex`, `strings.Index`) are embedded
  directly; the keyed hash `hmac.New(sha1.New, secret)` from `crypto` is
  treated as an external collaborator and passed as a function parameter
  `mac`, so every theorem holds for the real HMAC-SHA1 in particular.
* The per-request middleware closures are embedded as functions from the
  request-dependent inputs (method, the salt drawn from the random source,
  the extractor's result, the externally parsed signed token) to a result
  recording the returned error or the decision to call the downstream
  handler, together with the context entries and cookies written.
-/

namespace Lessgoext

/-! ## encoding/hex (Go stdlib collaborator) -/

/-- The digit table of Go's encoding/hex, `"0123456789abcdef"`. -/
def hexTable : List Char := "0123456789abcdef".toList

/-- `hexTable[n]`; for a real byte's nibble `n < 16`, so the default is
never reached on inputs the Go code can produce. -/
def hexDigit (n : Nat) : Char := hexTable.getD n '*'

/-- `hex.EncodeToString`: each byte `b` becomes the two characters
`hexTable[b >> 4]` and `hexTable[b & 0x0f]`. -/
def hexEncode : List Nat → List Char
  | [] => []
  | b :: bs => hexDigit (b / 16) :: hexDigit (b % 16) :: hexEncode bs

/-- The errors of `encoding/hex`: `InvalidByteError(c)` and `ErrLength`. -/
inductive HexError where
  | invalidByte (c : Char)
  | oddLength
deriving DecidableEq, Repr

/-- `encoding/hex`'s `fromHexChar`. -/
def fromHexChar (c : Char) : Option Nat :=
  if '0' ≤ c ∧ c ≤ '9' then some (c.toNat - '0'.toNat)
  else if 'a' ≤ c ∧ c ≤ 'f' then some (c.toNat - 'a'.toNat + 10)
  else if 'A' ≤ c ∧ c ≤ 'F' then some (c.toNat - 'A'.toNat + 10)
  else none

/-- `hex.DecodeString`: decode pairs of hex digits; a non-hex character is
an `InvalidByteError`, a trailing lone hex digit is `ErrLength`. -/
def hexDecode : List Char → Except HexError (List Nat)
  | [] => .ok []
  | [c] =>
    match fromHexChar c with
    | none => .error (.invalidByte c)
    | some _ => .error .oddLength
  | c1 :: c2 :: rest =>
    match fromHexChar c1 with
    | none => .error (.invalidByte c1)
    | some a =>
      match fromHexChar c2 with
      | none => .error (.invalidByte c2)
      | some b =>
        match hexDecode rest with
        | .error e => .error e
        | .ok bs => .ok ((16 * a + b) :: bs)

/-- `strings.Index(token, ":")` for a single-character needle: the index of
the first occurrence, or `none` when absent (Go returns `-1`). -/
def strIndex (c : Char) : List Char → Option Nat
  | [] => none
  | a :: as => if a = c then some 0 else (strIndex c as).map (· + 1)

/-! ## CSRF token engine (csrf.go, `generateCSRFToken` / `validateCSRFToken`) -/

/-- `generateCSRFToken(secret, salt)` from csrf.go:
`hex(hmac_sha1(secret, salt)) ++ ":" ++ hex(salt)`.  The keyed hash is the
parameter `mac` (Go: `h := hmac.New(sha1.New, secret); h.Write(salt);
h.Sum(nil)`), supplied by the crypto stdlib collaborator. -/
def generateCSRFToken (mac : List Nat → List Nat → List Nat)
    (secret salt : List Nat) : List Char :=
  hexEncode (mac secret salt) ++ ':' :: hexEncode salt

/-- `validateCSRFToken(token, secret)` from csrf.go: find the first `:`
(absent gives `(false, nil)`), hex-decode the part after it (failure is
returned as the error), then compare the whole token against the token
regenerated from the decoded salt. -/
def validateCSRFToken (mac : List Nat → List Nat → List Nat)
    (token : List Char) (secret : List Nat) : Bool × Option HexError :=
  match strIndex ':' token with
  | none => (false, none)
  | some sep =>
    match hexDecode (token.drop (sep + 1)) with
    | .error e => (false, some e)
    | .ok salt => (token == generateCSRFToken mac secret salt, none)

/-! ## CSRF middleware (csrf.go, `CSRFWithConfig`) -/

/-- `CSRFConfig` after the construction-time defaulting step (the per-request
handler only ever sees a defaulted config, so the embedding models the
resolved record; the `Extractor` field is represented by the extractor's
per-request result, an input of `csrfHandle`). -/
structure CSRFConfig where
  Secret : List Nat
  ContextKey : List Char
  CookieName : List Char
  CookieDomain : List Char
  CookiePath : List Char
  CookieExpires : Nat
  CookieSecure : Bool
  CookieHTTPOnly : Bool
deriving DecidableEq, Repr

/-- The fields of `net/http.Cookie` that csrf.go sets. -/
structure Cookie where
  name : List Char
  value : List Char
  expires : Nat
  secure : Bool
  httpOnly : Bool
  path : List Char
  domain : List Char
deriving DecidableEq, Repr

/-- The `http.Cookie` built at csrf.go lines 108-120: `Path` and `Domain`
are assigned only when the config value is non-empty, which coincides with
the zero value `""` they hold otherwise. -/
def csrfCookie (cfg : CSRFConfig) (token : List Char) : Cookie :=
  { name := cfg.CookieName
    value := token
    expires := cfg.CookieExpires
    secure := cfg.CookieSecure
    httpOnly := cfg.CookieHTTPOnly
    path := if cfg.CookiePath = [] then [] else cfg.CookiePath
    domain := if cfg.CookieDomain = [] then [] else cfg.CookieDomain }

/-- `lessgo.GET`. -/
def methodGET : List Char := ['G', 'E', 'T']

/-- `lessgo.HEAD`. -/
def methodHEAD : List Char := ['H', 'E', 'A', 'D']

/-- `lessgo.OPTIONS`. -/
def methodOPTIONS : List Char := ['O', 'P', 'T', 'I', 'O', 'N', 'S']

/-- `lessgo.TRACE`. -/
def methodTRACE : List Char := ['T', 'R', 'A', 'C', 'E']

/-- `lessgo.POST`. -/
def methodPOST : List Char := ['P', 'O', 'S', 'T']

/-- The guard of the `switch req.Method` at csrf.go line 123: these four
methods skip extraction and verification; every other method string falls
into the `default` branch. -/
def isSafeMethod (m : List Char) : Bool :=
  m == methodGET || m == methodHEAD || m == methodOPTIONS || m == methodTRACE

/-- The message of `lessgo.NewHTTPError(http.StatusForbidden, "invalid csrf token")`. -/
def invalidCSRFTokenMsg : List Char := "invalid csrf token".toList

/-- An error value returned by the CSRF per-request handler.  The first
three constructors are errors returned unchanged (`return err`): the random
source's error, the extractor's own error, and the hex-decode error out of
`validateCSRFToken`.  Only `httpForbidden` is a `lessgo.NewHTTPError`
constructed by the middleware itself (status 403). -/
inductive CSRFErr where
  | saltErr (msg : List Char)
  | extractorErr (msg : List Char)
  | decodeErr (e : HexError)
  | httpForbidden (msg : List Char)
deriving DecidableEq, Repr

/-- Whether a CSRF handler error is a `lessgo.HTTPError` built by the
middleware (carrying an HTTP status code) as opposed to a raw error value
passed through unchanged. -/
def CSRFErr.isHTTPError : CSRFErr → Bool
  | .httpForbidden _ => true
  | _ => false

/-- Outcome of one CSRF per-request run: an error returned up the chain, or
the call of the downstream handler `next`. -/
inductive CSRFOutcome where
  | err (e : CSRFErr)
  | next
deriving DecidableEq, Repr

/-- Result of one CSRF per-request run: the outcome plus the `c.Set` and
`c.SetCookie` calls performed, in order. -/
structure CSRFResult where
  outcome : CSRFOutcome
  ctxSet : List (List Char × List Char)
  cookiesSet : List Cookie
deriving DecidableEq, Repr

/-- The per-request handler returned by `CSRFWithConfig` (csrf.go lines
98-139).  `saltRes` is the result of `generateSalt(8)` (an 8-byte read from
`crypto/rand`, which may fail); `extractRes` is the result the configured
extractor would produce on this request (csrf.go runs it only in the
`default` branch of the method switch, which the theorems below make
visible as independence from `extractRes`). -/
def csrfHandle (mac : List Nat → List Nat → List Nat) (cfg : CSRFConfig)
    (saltRes : Except (List Char) (List Nat)) (method : List Char)
    (extractRes : Except (List Char) (List Char)) : CSRFResult :=
  match saltRes with
  | .error e => ⟨.err (.saltErr e), [], []⟩
  | .ok salt =>
    let token := generateCSRFToken mac cfg.Secret salt
    let ctx := [(cfg.ContextKey, token)]
    let cookies := [csrfCookie cfg token]
    if isSafeMethod method then ⟨.next, ctx, cookies⟩
    else
      match extractRes with
      | .error e => ⟨.err (.extractorErr e), ctx, cookies⟩
      | .ok t =>
        match validateCSRFToken mac t cfg.Secret with
        | (_, some e) => ⟨.err (.decodeErr e), ctx, cookies⟩
        | (ok, none) =>
          if ok then ⟨.next, ctx, cookies⟩
          else ⟨.err (.httpForbidden invalidCSRFTokenMsg), ctx, cookies⟩

/-! ## JWT middleware (`JWTWithConfig` and `JWTFromHeader`) -/

/-- `JWTConfig` after the construction-time defaulting step (as for
`CSRFConfig`, the handler sees only the resolved record and the extractor
is represented by its per-request result). -/
structure JWTConfig where
  SigningKey : List Char
  SigningMethod : List Char
  ContextKey : List Char
deriving DecidableEq, Repr

/-- Modelled from the spec: the compact signed token as handed back by the
external signing library's parser ("this structure's exact encoding is
owned by the external signing-library collaborator").  `alg` is the
declared algorithm identifier read from the parsed header
(`t.Method.Alg()`); `validKeys` lists the keys under which the token's
signature verifies. -/
structure ParsedToken where
  alg : List Char
  validKeys : List (List Char)
deriving DecidableEq, Repr

/-- The message of `fmt.Errorf("unexpected jwt signing method=%v", ...)`. -/
def unexpectedSigningMethodMsg (alg : List Char) : List Char :=
  "unexpected jwt signing method=".toList ++ alg

/-- Modelled from the spec: the failure of the external library's parser on
a structurally malformed wire string. -/
def malformedTokenMsg : List Char := "malformed token".toList

/-- Modelled from the spec: the external library's signature-mismatch
failure. -/
def invalidSignatureMsg : List Char := "invalid signature".toList

/-- The keyfunc closure passed to `jwt.Parse` by `JWTWithConfig`: if the
token's declared algorithm is not exactly the configured `SigningMethod`,
fail with the "unexpected jwt signing method" error; otherwise hand the
configured signing key to the library. -/
def jwtKeyfunc (cfg : JWTConfig) (t : ParsedToken) : Except (List Char) (List Char) :=
  if t.alg == cfg.SigningMethod then .ok cfg.SigningKey
  else .error (unexpectedSigningMethodMsg t.alg)

/-- Modelled from the spec: the external signing library's `jwt.Parse`.
`parsed` is `none` when the wire string is structurally malformed;
otherwise the keyfunc is consulted for the key (its error aborts parsing),
and the signature is checked under the returned key.  An `.ok` result
corresponds to `err == nil && token.Valid` at the call site. -/
def jwtParse (parsed : Option ParsedToken)
    (keyfunc : ParsedToken → Except (List Char) (List Char)) :
    Except (List Char) ParsedToken :=
  match parsed with
  | none => .error malformedTokenMsg
  | some t =>
    match keyfunc t with
    | .error e => .error e
    | .ok key => if t.validKeys.contains key then .ok t else .error invalidSignatureMsg

/-- Outcome of one JWT per-request run: `lessgo.NewHTTPError(400, ...)` on
extraction failure, `lessgo.ErrUnauthorized` (401) on parse/verification
failure, or the call of the downstream handler. -/
inductive JWTOutcome where
  | httpBadRequest (msg : List Char)
  | errUnauthorized
  | next
deriving DecidableEq, Repr

/-- Result of one JWT per-request run: the outcome plus the `c.Set` calls
performed (the verified token stored under `ContextKey`). -/
structure JWTResult where
  outcome : JWTOutcome
  ctxSet : List (List Char × ParsedToken)
deriving DecidableEq, Repr

/-- The per-request handler returned by `JWTWithConfig`: run the extractor
(an error becomes a 400 Bad Request), have the library parse and verify the
token through `jwtKeyfunc`; on success store the token in the context and
call `next`, otherwise return `lessgo.ErrUnauthorized`. -/
def jwtHandle (cfg : JWTConfig) (extractRes : Except (List Char) (List Char))
    (parsed : Option ParsedToken) : JWTResult :=
  match extractRes with
  | .error e => ⟨.httpBadRequest e, []⟩
  | .ok _ =>
    match jwtParse parsed (jwtKeyfunc cfg) with
    | .ok t => ⟨.next, [(cfg.ContextKey, t)]⟩
    | .error _ => ⟨.errUnauthorized, []⟩

/-- The `bearer` constant, `"Bearer"`. -/
def bearerScheme : List Char := ['B', 'e', 'a', 'r', 'e', 'r']

/-- The message of `errors.New("empty or invalid jwt in authorization header")`. -/
def emptyOrInvalidJWTMsg : List Char :=
  "empty or invalid jwt in authorization header".toList

/-- `JWTFromHeader` acting on the `Authorization` header value: with
`l = len("Bearer")`, accept when `len(auth) > l+1 && auth[:l] == "Bearer"`,
returning `auth[l+1:]`; otherwise fail. -/
def JWTFromHeader (auth : List Char) : Except (List Char) (List Char) :=
  if auth.length > bearerScheme.length + 1 ∧ auth.take bearerScheme.length = bearerScheme
  then .ok (auth.drop (bearerScheme.length + 1))
  else .error emptyOrInvalidJWTMsg

/-- A concrete stand-in keyed hash used to instantiate `mac` in witness
statements (the theorems themselves hold for an arbitrary `mac`). -/
def testMAC (secret msg : List Nat) : List Nat :=
  [(secret.foldl (· + ·) 0 + msg.foldl (· + ·) 0) % 256, msg.length % 256]

/-! ## Helper lemmas -/

theorem hexDigit_ne_colon (n : Nat) : hexDigit n ≠ ':' := by
  rcases Nat.lt_or_ge n 16 with h | h
  · interval_cases n <;> decide
  · have hlen : hexTable.length ≤ n := h
    simp [hexDigit, List.getD, List.getElem?_eq_none hlen]

theorem hexEncode_no_colon (bs : List Nat) : ':' ∉ hexEncode bs := by
  induction bs with
  | nil => simp [hexEncode]
  | cons b bs ih =>
    simp only [hexEncode, List.mem_cons, not_or]
    exact ⟨fun h => hexDigit_ne_colon _ h.symm, fun h => hexDigit_ne_colon _ h.symm, ih⟩

theorem strIndex_of_not_mem {c : Char} {xs : List Char} (h : c ∉ xs) :
    strIndex c xs = none := by
  induction xs with
  | nil => rfl
  | cons a as ih =>
    have ha : a ≠ c := fun e => h (e ▸ List.mem_cons_self _ _)
    simp [strIndex, ha, ih (fun hm => h (List.mem_cons_of_mem _ hm))]

theorem strIndex_append_colon (xs ys : List Char) (h : ':' ∉ xs) :
    strIndex ':' (xs ++ ':' :: ys) = some xs.length := by
  induction xs with
  | nil => simp [strIndex]
  | cons a as ih =>
    have ha : a ≠ ':' := fun e => h (e ▸ List.mem_cons_self _ _)
    simp [strIndex, ha, ih (fun hm => h (List.mem_cons_of_mem _ hm))]

theorem drop_append_cons (xs ys : List Char) (c : Char) :
    (xs ++ c :: ys).drop (xs.length + 1) = ys := by
  induction xs with
  | nil => simp
  | cons a as ih => simp [ih]

theorem fromHexChar_hexDigit (n : Nat) (h : n < 16) :
    fromHexChar (hexDigit n) = some n := by
  interval_cases n <;> decide

theorem hexDecode_hexEncode (bs : List Nat) (h : ∀ b ∈ bs, b < 256) :
    hexDecode (hexEncode bs) = .ok bs := by
  induction bs with
  | nil => rfl
  | cons b bs ih =>
    have hb : b < 256 := h b (List.mem_cons_self _ _)
    have h1 : b / 16 < 16 := Nat.div_lt_of_lt_mul (by omega)
    have h2 : b % 16 < 16 := Nat.mod_lt _ (by norm_num)
    have ih' := ih (fun x hx => h x (List.mem_cons_of_mem _ hx))
    have hdm : 16 * (b / 16) + b % 16 = b := Nat.div_add_mod b 16
    simp only [hexEncode, hexDecode, fromHexChar_hexDigit _ h1,
      fromHexChar_hexDigit _ h2, ih', hdm]

/-- Shared core of the roundtrip results: a token regenerated from its own
embedded salt validates. -/
theorem validate_generate (mac : List Nat → List Nat → List Nat)
    (secret salt : List Nat) (h : ∀ b ∈ salt, b < 256) :
    validateCSRFToken mac (generateCSRFToken mac secret salt) secret = (true, none) := by
  have hnc := hexEncode_no_colon (mac secret salt)
  have h1 := strIndex_append_colon (hexEncode (mac secret salt)) (hexEncode salt) hnc
  have h2 := drop_append_cons (hexEncode (mac secret salt)) (hexEncode salt) ':'
  simp only [validateCSRFToken, generateCSRFToken, h1, h2,
    hexDecode_hexEncode salt h]
  simp [generateCSRFToken]

/-! ## Claim theorems -/

/-- C1: a parsed token whose declared algorithm differs from the configured
`SigningMethod` is rejected with the unauthorized outcome and nothing is
stored in the context — for every set of keys validating its signature, in
particular even when the configured `SigningKey` is among them; the
keyfunc's comparison is exact equality of the algorithm strings. -/
theorem alg_mismatch_rejected (cfg : JWTConfig) (auth : List Char)
    (t : ParsedToken) (h : t.alg ≠ cfg.SigningMethod) :
    jwtHandle cfg (.ok auth) (some t) = ⟨.errUnauthorized, []⟩ := by
  simp [jwtHandle, jwtParse, jwtKeyfunc, h]

theorem alg_mismatch_rejected_w :
    jwtHandle ⟨['k'], ['H', 'S', '2', '5', '6'], ['u', 's', 'e', 'r']⟩
        (.ok ['x'])
        (some ⟨['n', 'o', 'n', 'e'], [['k']]⟩) =
      ⟨.errUnauthorized, []⟩ :=
  alg_mismatch_rejected _ _ _ (by decide)

/-- C2: for every keyed hash, secret and salt (a salt being a byte
sequence), the token issued by `generateCSRFToken` validates against the
same secret with no error. -/
theorem issue_verify_roundtrip (mac : List Nat → List Nat → List Nat)
    (secret salt : List Nat) (h : ∀ b ∈ salt, b < 256) :
    validateCSRFToken mac (generateCSRFToken mac secret salt) secret = (true, none) :=
  validate_generate mac secret salt h

theorem issue_verify_roundtrip_w :
    validateCSRFToken testMAC
        (generateCSRFToken testMAC [107] [1, 2, 3, 4, 5, 6, 7, 8]) [107] =
      (true, none) :=
  issue_verify_roundtrip testMAC [107] [1, 2, 3, 4, 5, 6, 7, 8] (by decide)

/-- C3: on GET/HEAD/OPTIONS/TRACE requests the handler stores the freshly
issued token in the context, sets its cookie, and calls the downstream
handler; the result is the same for any two extraction results, so neither
the extractor nor verification takes part. -/
theorem safe_method_issues_and_forwards (mac : List Nat → List Nat → List Nat)
    (cfg : CSRFConfig) (salt : List Nat) (method : List Char)
    (er er' : Except (List Char) (List Char))
    (h : isSafeMethod method = true) :
    csrfHandle mac cfg (.ok salt) method er =
      ⟨.next, [(cfg.ContextKey, generateCSRFToken mac cfg.Secret salt)],
        [csrfCookie cfg (generateCSRFToken mac cfg.Secret salt)]⟩ ∧
    csrfHandle mac cfg (.ok salt) method er =
      csrfHandle mac cfg (.ok salt) method er' := by
  constructor <;> simp [csrfHandle, h]

theorem safe_method_issues_and_forwards_w :
    csrfHandle testMAC ⟨[107], ['c'], ['c'], [], [], 0, false, false⟩
        (.ok [1, 2, 3, 4, 5, 6, 7, 8]) methodGET (.error ['e']) =
      ⟨.next,
        [(['c'], generateCSRFToken testMAC [107] [1, 2, 3, 4, 5, 6, 7, 8])],
        [csrfCookie ⟨[107], ['c'], ['c'], [], [], 0, false, false⟩
          (generateCSRFToken testMAC [107] [1, 2, 3, 4, 5, 6, 7, 8])]⟩ :=
  (safe_method_issues_and_forwards testMAC _ _ methodGET (.error ['e'])
    (.ok ['t']) (by decide)).1

/-- C4: on a state-changing method, when the extracted token fails
verification with no error (`(false, nil)`), the handler returns the 403
Forbidden `HTTPError` with message "invalid csrf token" and the downstream
handler is not invoked. -/
theorem invalid_token_forbidden (mac : List Nat → List Nat → List Nat)
    (cfg : CSRFConfig) (salt : List Nat) (method tok : List Char)
    (hm : isSafeMethod method = false)
    (hv : validateCSRFToken mac tok cfg.Secret = (false, none)) :
    (csrfHandle mac cfg (.ok salt) method (.ok tok)).outcome =
      .err (.httpForbidden invalidCSRFTokenMsg) ∧
    (csrfHandle mac cfg (.ok salt) method (.ok tok)).outcome ≠ .next := by
  constructor <;> simp [csrfHandle, hm, hv]

theorem invalid_token_forbidden_w :
    (csrfHandle testMAC ⟨[107], ['c'], ['c'], [], [], 0, false, false⟩
        (.ok [1, 2, 3, 4, 5, 6, 7, 8]) methodPOST (.ok ['z', 'z'])).outcome =
      .err (.httpForbidden invalidCSRFTokenMsg) :=
  (invalid_token_forbidden testMAC _ _ methodPOST ['z', 'z'] (by decide)
    (by decide)).1

/-- C5: verification distinguishes the two invalid shapes: a token with no
`:` separator yields `(false, none)` (invalid, no error), while a token
whose portion after the first `:` fails hex-decoding yields that decode
error, `(false, some e)`. -/
theorem validate_error_shapes (mac : List Nat → List Nat → List Nat)
    (secret : List Nat) (token : List Char) :
    (':' ∉ token → validateCSRFToken mac token secret = (false, none)) ∧
    (∀ sep e, strIndex ':' token = some sep →
      hexDecode (token.drop (sep + 1)) = .error e →
      validateCSRFToken mac token secret = (false, some e)) := by
  constructor
  · intro h
    simp [validateCSRFToken, strIndex_of_not_mem h]
  · intro sep e h1 h2
    simp [validateCSRFToken, h1, h2]

theorem validate_error_shapes_w :
    validateCSRFToken testMAC ['a', 'b', 'c'] [1] = (false, none) ∧
    validateCSRFToken testMAC ['a', ':', 'z', 'z'] [1] =
      (false, some (.invalidByte 'z')) :=
  ⟨(validate_error_shapes testMAC [1] ['a', 'b', 'c']).1 (by decide),
   (validate_error_shapes testMAC [1] ['a', ':', 'z', 'z']).2 1
     (.invalidByte 'z') (by decide) rfl⟩

/-- C6: the bearer extractor succeeds exactly on header values of the shape
`"Bearer"` followed by one (arbitrary) separator character and a non-empty
remainder, and then returns that remainder; every other shape errors. -/
theorem bearer_extractor_shape (auth tok : List Char) :
    JWTFromHeader auth = .ok tok ↔
      ∃ c rest, auth = bearerScheme ++ c :: rest ∧ rest ≠ [] ∧ tok = rest := by
  constructor
  · intro h
    unfold JWTFromHeader at h
    split at h
    case isTrue hc =>
      obtain ⟨hlen, htake⟩ := hc
      have hsplit : auth = auth.take bearerScheme.length ++ auth.drop bearerScheme.length :=
        (List.take_append_drop _ _).symm
      have hdl : (auth.drop bearerScheme.length).length =
          auth.length - bearerScheme.length := List.length_drop _ _
      cases hd : auth.drop bearerScheme.length with
      | nil => rw [hd] at hdl; simp at hdl; omega
      | cons c rest =>
        refine ⟨c, rest, ?_, ?_, ?_⟩
        · conv_lhs => rw [hsplit, htake, hd]
        · rw [hd] at hdl
          have : 0 < rest.length := by simp at hdl; omega
          exact List.ne_nil_of_length_pos this
        · have hdd : auth.drop (bearerScheme.length + 1) =
              (auth.drop bearerScheme.length).drop 1 := by
            rw [List.drop_drop, Nat.add_comm]
          rw [hdd, hd] at h
          simpa using h.symm
    case isFalse => exact absurd h (by simp)
  · rintro ⟨c, rest, rfl, hne, htok⟩
    have hr : 0 < rest.length := List.length_pos.mpr hne
    have h1 : (bearerScheme ++ c :: rest).length > bearerScheme.length + 1 := by
      simp only [List.length_append, List.length_cons]
      omega
    have h2 : (bearerScheme ++ c :: rest).take bearerScheme.length = bearerScheme :=
      List.take_left _ _
    simp [JWTFromHeader, h1, h2, drop_append_cons, htok]
    exact hne

/-- C7 counterexample: with the salt drawn successfully, a POST request
whose extractor errors makes the CSRF middleware return the extractor's raw
error value unchanged — which is not an `HTTPError` at all, hence not a
400-class Bad Request outcome. -/
theorem csrf_extractor_error_not_400 :
    (csrfHandle testMAC ⟨[107], ['c'], ['c'], [], [], 0, false, false⟩
        (.ok [1, 2, 3, 4, 5, 6, 7, 8]) methodPOST (.error ['e'])).outcome =
      .err (.extractorErr ['e']) ∧
    CSRFErr.isHTTPError (.extractorErr ['e']) = false := by
  decide

/-- C7 (amended): when the configured extractor fails, the JWT middleware
short-circuits with a 400 Bad Request `HTTPError` carrying the extractor's
message, while the CSRF middleware short-circuits with the extractor's
error returned unchanged (not an `HTTPError` of any status); in both
middlewares the downstream handler is never invoked. -/
theorem extractor_error_short_circuits (mac : List Nat → List Nat → List Nat)
    (jcfg : JWTConfig) (ccfg : CSRFConfig) (salt : List Nat)
    (method e : List Char) (parsed : Option ParsedToken)
    (hm : isSafeMethod method = false) :
    jwtHandle jcfg (.error e) parsed = ⟨.httpBadRequest e, []⟩ ∧
    (csrfHandle mac ccfg (.ok salt) method (.error e)).outcome =
      .err (.extractorErr e) ∧
    (csrfHandle mac ccfg (.ok salt) method (.error e)).outcome ≠ .next ∧
    CSRFErr.isHTTPError (.extractorErr e) = false := by
  refine ⟨rfl, ?_, ?_, rfl⟩ <;> simp [csrfHandle, hm]

theorem extractor_error_short_circuits_w :
    jwtHandle ⟨['k'], ['H', 'S', '2', '5', '6'], ['u']⟩ (.error ['e']) none =
      ⟨.httpBadRequest ['e'], []⟩ ∧
    (csrfHandle testMAC ⟨[107], ['c'], ['c'], [], [], 0, false, false⟩
        (.ok [9]) methodPOST (.error ['e'])).outcome =
      .err (.extractorErr ['e']) ∧
    (csrfHandle testMAC ⟨[107], ['c'], ['c'], [], [], 0, false, false⟩
        (.ok [9]) methodPOST (.error ['e'])).outcome ≠ .next ∧
    CSRFErr.isHTTPError (.extractorErr ['e']) = false :=
  extractor_error_short_circuits testMAC _ _ [9] methodPOST ['e'] none (by decide)

/-- C8: when the random source fails during salt generation, the handler
returns that error with the context untouched and no cookie set. -/
theorem salt_error_leaves_state (mac : List Nat → List Nat → List Nat)
    (cfg : CSRFConfig) (method : List Char)
    (er : Except (List Char) (List Char)) (e : List Char) :
    csrfHandle mac cfg (.error e) method er = ⟨.err (.saltErr e), [], []⟩ := rfl

/-- C9: verification never inspects the salt's length, so a token of the
shape `hex(mac(S, R)) ++ ":" ++ hex(R)` is accepted for a salt `R` of any
length, not only the 8 bytes used at issuance. -/
theorem validate_ignores_salt_length (mac : List Nat → List Nat → List Nat)
    (secret salt : List Nat) (h : ∀ b ∈ salt, b < 256) :
    validateCSRFToken mac (hexEncode (mac secret salt) ++ ':' :: hexEncode salt)
      secret = (true, none) :=
  validate_generate mac secret salt h

theorem validate_ignores_salt_length_w :
    validateCSRFToken testMAC
        (hexEncode (testMAC [107] [1, 2, 3]) ++ ':' :: hexEncode [1, 2, 3]) [107] =
      (true, none) :=
  validate_ignores_salt_length testMAC [107] [1, 2, 3] (by decide)

/-- C10: whenever salt generation succeeds, the freshly issued token is
stored in the context under `ContextKey` and its cookie is set, for every
method and every extraction result — in particular also on runs that end in
a rejection. -/
theorem token_issued_on_every_path (mac : List Nat → List Nat → List Nat)
    (cfg : CSRFConfig) (salt : List Nat) (method : List Char)
    (er : Except (List Char) (List Char)) :
    (csrfHandle mac cfg (.ok salt) method er).ctxSet =
      [(cfg.ContextKey, generateCSRFToken mac cfg.Secret salt)] ∧
    (csrfHandle mac cfg (.ok salt) method er).cookiesSet =
      [csrfCookie cfg (generateCSRFToken mac cfg.Secret salt)] := by
  rcases er with e | t
  · cases hm : isSafeMethod method <;> simp [csrfHandle, hm]
  · cases hm : isSafeMethod method
    · rcases hv : validateCSRFToken mac t cfg.Secret with ⟨ok, oe⟩
      cases oe <;> cases ok <;> simp [csrfHandle, hm, hv]
    · simp [csrfHandle, hm]

end Lessgoext
